import Mathlib

/-!
Verification of the pycmds pattern-matching search core.

This file gives a shallow embedding, in Lean 4, of the parts of the
pycmds repository that the verified properties talk about:

* `FileTypeE.from_path` (src/pycmds/FileTypeE.py): classification of a
  filesystem entry into one of eight kinds by a fixed chain of predicates.
* `PyFinder.find` / `PyFinder._exec_cmd` (src/pycmds/pyfind.py): the
  depth-bounded traversal loop over the sequence produced by `os.walk`,
  and the `-exec` command-template expansion.
* `PyGrep.search_line` / `search_file` / `search_files` /
  `_generate_files` (src/pycmds/pygrep.py): candidate expansion and the
  per-candidate line scan, plus the sequential driver.
* `FileTypeCodec.magic_from_file` (src/pycmds/FileReader.py): the
  memoized MIME/encoding classification.

Python strings are modelled as `List Char` where their character
structure matters (the magic result parsing) and as Lean `String`
elsewhere.  External collaborators (the filesystem, `os.walk`, the
libmagic sniffer, compiled regular expressions) are supplied as oracle
data: functions or lists given as parameters, never recomputed by the
model.  Python exceptions are modelled by the `PyResult` type.
-/

namespace Pycmds

/-! ### Python string primitives over `List Char` -/

/-- Boolean test that `p` is a leading segment of `l`
(Python `str.startswith` over explicit characters). -/
def listIsPre : List Char → List Char → Bool
  | [], _ => true
  | _ :: _, [] => false
  | a :: xs, b :: ys => a == b && listIsPre xs ys

/-- Boolean occurrence test: some tail of `l` starts with `pat`
(Python `pat in l`). -/
def subOcc (pat : List Char) : List Char → Bool
  | [] => pat.isEmpty
  | c :: rest => listIsPre pat (c :: rest) || subOcc pat rest

/-- Python `str.split(sep)` accumulator: `acc` holds the reversed
characters of the field being read. -/
def pySplitAux (sep : Char) : List Char → List Char → List (List Char)
  | acc, [] => [acc.reverse]
  | acc, c :: rest =>
    if c = sep then acc.reverse :: pySplitAux sep [] rest
    else pySplitAux sep (c :: acc) rest

/-- Python `s.split(sep)` for a one-character separator. -/
def pySplit (sep : Char) (s : List Char) : List (List Char) :=
  pySplitAux sep [] s

/-- The six ASCII characters removed by Python `str.strip()`. -/
def isPySpace (c : Char) : Bool :=
  c == ' ' || c == '\t' || c == '\n' || c == '\r' || c == '\x0b' || c == '\x0c'

/-- Python `s.strip()`. -/
def pyStrip (s : List Char) : List Char :=
  ((s.dropWhile isPySpace).reverse.dropWhile isPySpace).reverse

/-- The characters of the literal `"charset="` removed by
`_codec.replace("charset=", "")` in `FileTypeCodec.magic_from_file`. -/
def charsetChars : List Char := ['c', 'h', 'a', 'r', 's', 'e', 't', '=']

/-- Python `s.replace("charset=", "")`: delete every (left-to-right,
non-overlapping) occurrence of `charset=`, keep every other character. -/
def removeCharset : List Char → List Char
  | [] => []
  | 'c' :: 'h' :: 'a' :: 'r' :: 's' :: 'e' :: 't' :: '=' :: rest => removeCharset rest
  | c :: rest => c :: removeCharset rest

/-! ### Lemmas about the string primitives -/

theorem listIsPre_self_append (p s : List Char) : listIsPre p (p ++ s) = true := by
  induction p with
  | nil => rfl
  | cons a xs ih => simp [listIsPre, ih]

theorem pySplitAux_no_sep (sep : Char) (l : List Char) (acc : List Char)
    (h : sep ∉ l) : pySplitAux sep acc l = [acc.reverse ++ l] := by
  induction l generalizing acc with
  | nil => simp [pySplitAux]
  | cons c rest ih =>
    have hc : c ≠ sep := fun he => h (he ▸ List.mem_cons_self c rest)
    have hr : sep ∉ rest := fun hm => h (List.mem_cons_of_mem c hm)
    simp only [pySplitAux]
    rw [if_neg hc, ih (c :: acc) hr]
    simp

theorem pySplitAux_sep (sep : Char) (l r acc : List Char) (h : sep ∉ l) :
    pySplitAux sep acc (l ++ sep :: r) = (acc.reverse ++ l) :: pySplitAux sep [] r := by
  induction l generalizing acc with
  | nil => simp [pySplitAux]
  | cons c rest ih =>
    have hc : c ≠ sep := fun he => h (he ▸ List.mem_cons_self c rest)
    have hr : sep ∉ rest := fun hm => h (List.mem_cons_of_mem c hm)
    simp only [List.cons_append, pySplitAux]
    rw [if_neg hc, show rest.append (sep :: r) = rest ++ sep :: r from rfl,
      ih (c :: acc) hr]
    simp

theorem pySplit_two_fields (sep : Char) (l r : List Char)
    (hl : sep ∉ l) (hr : sep ∉ r) :
    pySplit sep (l ++ sep :: r) = [l, r] := by
  unfold pySplit
  rw [pySplitAux_sep sep l r [] hl, pySplitAux_no_sep sep r [] hr]
  simp

theorem dropWhile_eq_self_of_none (p : Char → Bool) (l : List Char)
    (h : ∀ c ∈ l, p c = false) : l.dropWhile p = l := by
  cases l with
  | nil => rfl
  | cons c rest => simp [List.dropWhile_cons, h c (List.mem_cons_self c rest)]

theorem pyStrip_no_space (l : List Char) (h : ∀ c ∈ l, isPySpace c = false) :
    pyStrip l = l := by
  unfold pyStrip
  rw [dropWhile_eq_self_of_none isPySpace l h,
      dropWhile_eq_self_of_none isPySpace l.reverse
        (fun c hc => h c (List.mem_reverse.mp hc)),
      List.reverse_reverse]

theorem pyStrip_cons_space (l : List Char) : pyStrip (' ' :: l) = pyStrip l := by
  unfold pyStrip
  simp [List.dropWhile_cons, isPySpace]

theorem removeCharset_not_pre (c : Char) (l : List Char)
    (h : listIsPre charsetChars (c :: l) = false) :
    removeCharset (c :: l) = c :: removeCharset l := by
  rw [removeCharset.eq_def]
  split
  · rename_i heq
    exact absurd heq (by simp)
  · rename_i rest heq
    rw [heq] at h
    have hp : listIsPre charsetChars (charsetChars ++ rest) = true :=
      listIsPre_self_append charsetChars rest
    have hp2 : listIsPre charsetChars
        ('c' :: 'h' :: 'a' :: 'r' :: 's' :: 'e' :: 't' :: '=' :: rest) = true := hp
    rw [hp2] at h
    exact absurd h (by simp)
  · rename_i c2 rest2 heq
    rw [List.cons_eq_cons] at heq
    rw [heq.1, heq.2]

theorem removeCharset_pre (s : List Char) :
    removeCharset (charsetChars ++ s) = removeCharset s := rfl

theorem removeCharset_no_occ (s : List Char) (h : subOcc charsetChars s = false) :
    removeCharset s = s := by
  induction s with
  | nil => rfl
  | cons c rest ih =>
    have h2 : listIsPre charsetChars (c :: rest) = false ∧
        subOcc charsetChars rest = false := by
      have hx := h
      simp only [subOcc, Bool.or_eq_false_iff] at hx
      exact hx
    rw [removeCharset_not_pre c rest h2.1, ih h2.2]

/-! ### FileTypeE (src/pycmds/FileTypeE.py) -/

/-- The eight file kinds of `class FileTypeE(Enum)`. -/
inductive FTypeE where
  | block_device
  | char_unbuffered_special
  | directory
  | regular_file
  | symbolic_link
  | mount
  | fifo
  | socket
deriving DecidableEq

/-- The results of the eight `pathlib.Path` predicates consulted by
`FileTypeE.from_path` for one concrete filesystem entry.  `is_dir`,
`is_file` and the device predicates follow symbolic links, so several
fields can be true at once. -/
structure PathPreds where
  is_char_device : Bool
  is_dir : Bool
  is_symlink : Bool
  is_socket : Bool
  is_mount : Bool
  is_block_device : Bool
  is_fifo : Bool
  is_file : Bool

/-- `FileTypeE.from_path`: the if/elif chain from the source, in source
order; `Except.error ()` models the final `raise ValueError`. -/
def fromPath (p : PathPreds) : Except Unit FTypeE :=
  if p.is_char_device then .ok .char_unbuffered_special
  else if p.is_dir then .ok .directory
  else if p.is_symlink then .ok .symbolic_link
  else if p.is_socket then .ok .socket
  else if p.is_mount then .ok .mount
  else if p.is_block_device then .ok .block_device
  else if p.is_fifo then .ok .fifo
  else if p.is_file then .ok .regular_file
  else .error ()

instance : DecidableEq (Except Unit FTypeE) := fun x y =>
  match x, y with
  | .ok a, .ok b =>
    if h : a = b then isTrue (congrArg Except.ok h)
    else isFalse (fun he => h (Except.ok.inj he))
  | .ok _, .error _ => isFalse (fun he => Except.noConfusion he)
  | .error _, .ok _ => isFalse (fun he => Except.noConfusion he)
  | .error (), .error () => isTrue rfl

/-- The predicate/kind pairs in the order stated by the specification:
char-device, directory, symbolic-link, socket, mount-point,
block-device, fifo, regular-file. -/
def specKindOrder (p : PathPreds) : List (Bool × FTypeE) :=
  [(p.is_char_device, .char_unbuffered_special),
   (p.is_dir, .directory),
   (p.is_symlink, .symbolic_link),
   (p.is_socket, .socket),
   (p.is_mount, .mount),
   (p.is_block_device, .block_device),
   (p.is_fifo, .fifo),
   (p.is_file, .regular_file)]

/-- First-match-wins resolution over `specKindOrder`, written from the
specification text, to be compared with `fromPath`. -/
def firstMatchKind (p : PathPreds) : Except Unit FTypeE :=
  match (specKindOrder p).find? (fun x => x.1) with
  | some x => .ok x.2
  | none => .error ()

/-! ### PyFinder (src/pycmds/pyfind.py) -/

/-- Traversal configuration: the `PyFinder.__init__` fields.  A compiled
name regex is an oracle `String → Bool` giving the truth of
`pattern.match(name) is not None` (anchored at position zero). -/
structure FindCfg where
  ftypes : Option (List FTypeE)
  namePatterns : Option (List (String → Bool))
  cmds : Option (List String)
  maxdepth : Int
  mindepth : Int

/-- `PyFinder.EXEC_CMD_SEPERATORS`. -/
def EXEC_CMD_SEPARATORS : List String := [";", "\\;"]

/-- `PyFinder.EXEC_CMD_PLACEHOLDER`. -/
def EXEC_CMD_PLACEHOLDER : String := "{}"

/-- One iteration of the token loop in `PyFinder._exec_cmd`:
`acc.1` is `_cmds` (completed sub-commands), `acc.2` is `_cmd`
(the sub-command being accumulated). -/
def execCmdStep (p : String) (acc : List (List String) × List String)
    (s : String) : List (List String) × List String :=
  if s = EXEC_CMD_PLACEHOLDER then (acc.1, acc.2 ++ [p])
  else if EXEC_CMD_SEPARATORS.contains s then (acc.1 ++ [acc.2], [])
  else (acc.1, acc.2 ++ [s])

/-- `PyFinder._exec_cmd`: the list of sub-commands actually passed to
`subprocess.run`, in order.  As in the source, the trailing accumulated
sub-command is NOT appended to `_cmds` after the loop, so a template
not ending in a separator drops its final sub-command. -/
def execCmdSubs (cmds : List String) (p : String) : List (List String) :=
  (cmds.foldl (execCmdStep p) ([], [])).1

/-- Depth of a visited directory in `PyFinder.find`:
`len(_dir.relative_to(root_dir).as_posix().split("/"))`.  For the root
itself the relative path is `"."`, whose split is `["."]` of length 1;
otherwise the length is the number of path components. -/
def pathDepth (rel : List String) : Nat :=
  if rel.isEmpty then 1 else rel.length

/-- `PyFinder._filter_on_ftypes`; `kindOf` is the oracle giving
`FileTypeE.from_path` for each entry (relative component list). -/
def filterOnFtypes (cfg : FindCfg) (kindOf : List String → FTypeE)
    (rel : List String) : Bool :=
  match cfg.ftypes with
  | none => true
  | some ts => ts.contains (kindOf rel)

/-- `PyFinder._filter_on_name`, applied to `p.name`. -/
def filterOnName (cfg : FindCfg) (name : String) : Bool :=
  match cfg.namePatterns with
  | none => true
  | some ps => ps.any (fun m => m name)

/-- `p.name` for an entry given by its components relative to the root:
the last component, or the root's own name for the root itself. -/
def relBaseName (root : String) (rel : List String) : String :=
  match rel.getLast? with
  | some n => n
  | none => root

/-- `str(p)` for an entry given by its components relative to the root. -/
def renderPath (root : String) (rel : List String) : String :=
  String.intercalate "/" (root :: rel)

/-- What happens to one matched entry in `PyFinder.find`: with `-exec`
commands configured the sub-commands run by `_exec_cmd` (and nothing is
yielded), otherwise the entry is yielded. -/
inductive FindEv where
  | yielded (rel : List String)
  | execed (subs : List (List String))
deriving DecidableEq

/-- `emitMatch cfg root rel`: dispatch for an entry passing both filters. -/
def emitMatch (cfg : FindCfg) (root : String) (rel : List String) : FindEv :=
  match cfg.cmds with
  | some cs => .execed (execCmdSubs cs (renderPath root rel))
  | none => .yielded rel

/-- The body of the `os.walk` loop in `PyFinder.find` for one
`(dirpath, dirnames, filenames)` triple: `entry.1` is the directory's
components relative to the root, `entry.2` its file names.  The depth
guard reproduces the source exactly: it runs whenever either bound is
non-negative and `continue`s when the depth is above `maxdepth` or
below `mindepth`. -/
def visitDir (cfg : FindCfg) (kindOf : List String → FTypeE) (root : String)
    (entry : List String × List String) : List FindEv :=
  let rel := entry.1
  let fnames := entry.2
  if (cfg.maxdepth ≥ 0 ∨ cfg.mindepth ≥ 0) ∧
      ((pathDepth rel : Int) > cfg.maxdepth ∨ (pathDepth rel : Int) < cfg.mindepth) then
    []
  else
    (if filterOnFtypes cfg kindOf rel && filterOnName cfg (relBaseName root rel) then
      [emitMatch cfg root rel]
    else []) ++
    fnames.filterMap (fun fn =>
      if filterOnFtypes cfg kindOf (rel ++ [fn]) && filterOnName cfg fn then
        some (emitMatch cfg root (rel ++ [fn]))
      else none)

/-- `PyFinder.find`.  `os.walk` is external; `walkOut` is the sequence
of triples it yields for the root, each directory given by its
components relative to the root (the root itself is `[]`). -/
def find (cfg : FindCfg) (kindOf : List String → FTypeE) (root : String)
    (walkOut : List (List String × List String)) : List FindEv :=
  walkOut.flatMap (visitDir cfg kindOf root)

/-- Traversal configuration with no type filter, no name filter and no
`-exec` commands, as built by `pyfind` when only depth flags are given. -/
def findCfg (md mi : Int) : FindCfg :=
  { ftypes := none, namePatterns := none, cmds := none, maxdepth := md, mindepth := mi }

/-- Kind oracle for the one-file example tree: the root is a directory,
everything below it a regular file. -/
def kind0 : List String → FTypeE :=
  fun rel => if rel.isEmpty then .directory else .regular_file

/-- The `os.walk` output for a root directory `R` containing exactly
the one regular file `R/a.txt`. -/
def walkOneFile : List (List String × List String) := [([], ["a.txt"])]

/-- C7: `FileTypeE.from_path` resolves the eight kind predicates by
first match in the order char-device, directory, symbolic-link, socket,
mount-point, block-device, fifo, regular-file (`fromPath` equals the
first-match resolution `firstMatchKind` written from that order), fails
with a classification error exactly when all eight predicates are
false, and in particular reports a symbolic link that resolves to a
directory (`is_dir` true, `is_char_device` false) as `directory`. -/
theorem C7_from_path_first_match_order :
    ∀ a b c d e f g h : Bool,
      (fromPath ⟨a, b, c, d, e, f, g, h⟩ = firstMatchKind ⟨a, b, c, d, e, f, g, h⟩) ∧
      (fromPath ⟨a, b, c, d, e, f, g, h⟩ = .error () ↔
        a = false ∧ b = false ∧ c = false ∧ d = false ∧
        e = false ∧ f = false ∧ g = false ∧ h = false) ∧
      (a = false → b = true →
        fromPath ⟨a, b, c, d, e, f, g, h⟩ = .ok .directory) := by
  intro a b c d e f g h
  cases a <;> cases b <;> cases c <;> cases d <;>
    cases e <;> cases f <;> cases g <;> cases h <;>
    exact (by decide)

/-- C7 witness: a symlink resolving to a directory (char-device false,
`is_dir` true, `is_symlink` true) is classified as `directory`, by the
order theorem applied at that concrete predicate vector. -/
theorem C7_from_path_first_match_order_witness :
    fromPath ⟨false, true, true, false, false, false, false, false⟩ = .ok .directory :=
  (C7_from_path_first_match_order false true true false false false false false).2.2
    rfl rfl

/-- C2 counterexample: for a root `R` containing only the file
`R/a.txt`, a traversal with max depth 1 DOES report `a.txt` (the claim
says it does not): the depth guard is evaluated only for the visited
directory (`R`, at depth 1), and the files inside a surviving directory
are reported without a depth of their own. -/
theorem C2_depth_counterexample :
    pathDepth [] = 1 ∧
    find (findCfg 1 (-1)) kind0 "R" walkOneFile =
      [.yielded [], .yielded ["a.txt"]] := by
  decide

/-- C2 amended: depth(R) = 1, but `R/a.txt` is filtered by its
directory's depth, not a depth of its own: traversals with max depth 1
and with max depth 2 both report `a.txt`, while max depth 0 reports
nothing at all (the root itself already exceeds it). -/
theorem C2_depth_amended :
    pathDepth [] = 1 ∧
    FindEv.yielded ["a.txt"] ∈ find (findCfg 1 (-1)) kind0 "R" walkOneFile ∧
    FindEv.yielded ["a.txt"] ∈ find (findCfg 2 (-1)) kind0 "R" walkOneFile ∧
    find (findCfg 0 (-1)) kind0 "R" walkOneFile = [] := by
  decide

/-- C3: evaluating `PyFinder._exec_cmd` at the template
`["echo","{}",";","ls","{}"]` and path `/tmp/x` runs exactly ONE
sub-command, `["echo","/tmp/x"]` — not the two the claim states: the
sub-command being accumulated when the token list ends is never flushed
to the executed list, so the trailing `["ls","/tmp/x"]` is dropped
(appending a final separator makes both run). -/
theorem C3_exec_cmd_eval :
    execCmdSubs ["echo", "{}", ";", "ls", "{}"] "/tmp/x" = [["echo", "/tmp/x"]] ∧
    execCmdSubs ["echo", "{}", ";", "ls", "{}", ";"] "/tmp/x" =
      [["echo", "/tmp/x"], ["ls", "/tmp/x"]] := by
  decide

/-- C4: with max depth unset (−1) and min depth set, `PyFinder.find`
reports nothing at all: the guard runs because min depth is
non-negative, and the `depth > maxdepth` test compares against −1,
which every depth exceeds, so every directory (and with it every file)
is skipped — the claim says no entry is ever skipped for exceeding an
unset maximum. -/
theorem C4_unset_maxdepth_eval :
    find (findCfg (-1) 1) kind0 "R" walkOneFile = [] ∧
    find (findCfg (-1) 0) kind0 "R" walkOneFile = [] ∧
    find (findCfg (-1) (-1)) kind0 "R" walkOneFile =
      [.yielded [], .yielded ["a.txt"]] := by
  decide

/-! ### PyGrep (src/pycmds/pygrep.py) -/

/-- Result of a Python call that can raise: `ok` is a normal return,
`exn` an uncaught exception. -/
inductive PyResult (α : Type) where
  | ok (a : α)
  | exn
deriving DecidableEq

/-- Search configuration: the `PyGrep` fields the search itself reads.
A compiled regex is an oracle `String → Bool` giving the truth of
`pattern.search(line) is not None`. -/
structure GrepCfg where
  regexPatterns : List (String → Bool)
  fixedStringPatterns : List String
  noMessage : Bool
  quitOnError : Bool

/-- Python `sub in line` for strings. -/
def pyIn (sub line : String) : Bool := subOcc sub.toList line.toList

/-- `PyGrep.search_line`: some regex matches the line, or — failing
that — some fixed string occurs in it. -/
def searchLine (cfg : GrepCfg) (line : String) : Bool :=
  cfg.regexPatterns.any (fun r => r line) ||
    cfg.fixedStringPatterns.any (fun s => pyIn s line)

/-- A search candidate: a filesystem path or an already-open text
stream carrying its remaining lines. -/
inductive Cand where
  | fpath (p : String)
  | stream (id : Nat) (lines : List String)
deriving DecidableEq

/-- The `FileTypeE.from_path` outcomes `PyGrep._generate_files`
distinguishes. -/
inductive GKind where
  | regular
  | directory
  | other
deriving DecidableEq

/-- What the filesystem oracle knows about one existing path:
its kind, its MIME type (`magic.from_file(p, mime=True)`), whether the
`is_text_file` classification raises, whether opening/reading raises,
its decoded lines, and — for a directory — the full recursive file
listing `os.walk` produces for it, in discovery order. -/
structure GEntry where
  kind : GKind
  mime : String
  classifyRaises : Bool
  openRaises : Bool
  lines : List String
  walkFiles : List String
deriving DecidableEq

/-- The filesystem oracle: `none` means the path does not exist. -/
structure GrepFS where
  entry : String → Option GEntry

/-- `FileTypeE.is_text_file` for an existing entry:
`magic.from_file(p, mime=True).startswith("text")`. -/
def entryIsText (e : GEntry) : Bool :=
  listIsPre "text".toList e.mime.toList

/-- The `logger.warning` text for a non-text candidate in
`PyGrep.search_file`. -/
def warnNonText (p : String) : String := "Ignoring non-text file: " ++ p

/-- The `logger.error` text of the `except` block in
`PyGrep.search_file`. -/
def errFailed (p : String) : String := "Failed to handle file " ++ p

/-- The diagnostics and outcome of the `except Exception` block in
`PyGrep.search_file`: log unless suppressed, re-raise if
`quit_on_error`, otherwise fall through to the final
`return (fpath, False)`. -/
def exceptOutcome (cfg : GrepCfg) (p : String) :
    PyResult (Cand × Bool) × List String :=
  ((if cfg.quitOnError then .exn else .ok (.fpath p, false)),
   if cfg.noMessage then [] else [errFailed p])

/-- `PyGrep.search_file`.  For a path candidate: classification errors
and open/read errors land in the `except` block; a non-text file is
skipped with a warning and reported unmatched; otherwise the file is
scanned line by line, matched at the first line `search_line` accepts.
For a stream candidate the source's loop returns after examining the
FIRST line only (its `return (fpath, False)` sits inside the `for`
body), and an empty stream falls through to the final
`return (fpath, False)`. -/
def searchFile (cfg : GrepCfg) (fs : GrepFS) :
    Cand → PyResult (Cand × Bool) × List String
  | .fpath p =>
    match fs.entry p with
    | none => exceptOutcome cfg p
    | some e =>
      if e.classifyRaises then exceptOutcome cfg p
      else if entryIsText e = false then
        (.ok (.fpath p, false), if cfg.noMessage then [] else [warnNonText p])
      else if e.openRaises then exceptOutcome cfg p
      else (.ok (.fpath p, e.lines.any (searchLine cfg)), [])
  | .stream i ls =>
    match ls with
    | [] => (.ok (.stream i ls, false), [])
    | l :: _ => (.ok (.stream i ls, searchLine cfg l), [])

/-- `PyGrep._generate_files`: expand the input sequence into the
candidate stream.  A missing path or an unhandled kind aborts the
generator when `quit_on_error` is set and is skipped otherwise; a
regular file is yielded; a directory contributes its recursive file
listing; a stream is passed through.  Returns the candidates yielded
before any abort, and whether the generator raised.  (Diagnostics of
this generator are not modelled.) -/
def generateFiles (cfg : GrepCfg) (fs : GrepFS) : List Cand → List Cand × Bool
  | [] => ([], false)
  | c :: rest =>
    match c with
    | .fpath p =>
      match fs.entry p with
      | none =>
        if cfg.quitOnError then ([], true)
        else generateFiles cfg fs rest
      | some e =>
        match e.kind with
        | .regular =>
          let tl := generateFiles cfg fs rest
          (.fpath p :: tl.1, tl.2)
        | .directory =>
          let tl := generateFiles cfg fs rest
          (e.walkFiles.map .fpath ++ tl.1, tl.2)
        | .other =>
          if cfg.quitOnError then ([], true)
          else generateFiles cfg fs rest
    | .stream i ls =>
      let tl := generateFiles cfg fs rest
      (.stream i ls :: tl.1, tl.2)

/-- Python truthiness of the 2-tuple returned by `search_file`: the
sequential branch of `search_files` writes
`if self.search_file(_fpath):`, and a nonempty tuple is always truthy,
whatever its second component. -/
def pyTruthy (_t : Cand × Bool) : Bool := true

/-- The sequential print loop of `PyGrep.search_files` over the already
generated candidates: a candidate whose `search_file` raises aborts the
loop; otherwise the candidate is printed when the tuple test passes. -/
def processSeq (cfg : GrepCfg) (fs : GrepFS) : List Cand → List Cand × Bool
  | [] => ([], false)
  | c :: rest =>
    match (searchFile cfg fs c).1 with
    | .exn => ([], true)
    | .ok pr =>
      let tl := processSeq cfg fs rest
      if pyTruthy pr then (c :: tl.1, tl.2) else tl

/-- Sequential `PyGrep.search_files`: candidates printed to stdout in
order, and whether the run aborted with an exception. -/
def searchFilesSeq (cfg : GrepCfg) (fs : GrepFS) (files : List Cand) :
    List Cand × Bool :=
  let gen := generateFiles cfg fs files
  let pr := processSeq cfg fs gen.1
  (pr.1, pr.2 || gen.2)

/-- Fixed-string search for `match`, diagnostics on, abort-on-error
off, sequential. -/
def cfg1 : GrepCfg :=
  { regexPatterns := [], fixedStringPatterns := ["match"],
    noMessage := false, quitOnError := false }

/-- A text file whose single line contains `match`. -/
def entA : GEntry :=
  { kind := .regular, mime := "text/plain", classifyRaises := false,
    openRaises := false, lines := ["has match"], walkFiles := [] }

/-- A text file none of whose lines contains `match`. -/
def entB : GEntry :=
  { kind := .regular, mime := "text/plain", classifyRaises := false,
    openRaises := false, lines := ["nothing here"], walkFiles := [] }

/-- A second text file whose single line contains `match`. -/
def entC : GEntry :=
  { kind := .regular, mime := "text/plain", classifyRaises := false,
    openRaises := false, lines := ["also match"], walkFiles := [] }

/-- Filesystem with the three regular text files `A`, `B`, `C`. -/
def fs1 : GrepFS :=
  { entry := fun p =>
      if p = "A" then some entA
      else if p = "B" then some entB
      else if p = "C" then some entC
      else none }

/-- C1: in sequential mode the code prints EVERY expanded candidate,
matched or not: `search_file` returns a `(candidate, bool)` tuple and
the sequential branch tests the tuple itself, which is always truthy.
With candidates A, B, C where only A and C match, the printed output is
A, B, C — the claim says exactly A then C with B never printed. -/
theorem C1_sequential_prints_all_eval :
    (searchFile cfg1 fs1 (.fpath "A")).1 = .ok (.fpath "A", true) ∧
    (searchFile cfg1 fs1 (.fpath "B")).1 = .ok (.fpath "B", false) ∧
    (searchFile cfg1 fs1 (.fpath "C")).1 = .ok (.fpath "C", true) ∧
    searchFilesSeq cfg1 fs1 [.fpath "A", .fpath "B", .fpath "C"] =
      ([.fpath "A", .fpath "B", .fpath "C"], false) := by
  decide

/-- C5: for an open stream whose FIRST line does not match but whose
second line does, `search_file` reports not matched: the stream loop's
`return (fpath, False)` is inside the loop body, so only the first line
is ever examined — the claim says any stream whose n-th line (n ≥ 1) is
the first matching line yields `(stream, True)`. -/
theorem C5_stream_first_line_only_eval :
    searchLine cfg1 "second match" = true ∧
    (searchFile cfg1 fs1 (.stream 0 ["first", "second match"])).1 =
      .ok (.stream 0 ["first", "second match"], false) ∧
    (searchFile cfg1 fs1 (.stream 1 ["first match", "second"])).1 =
      .ok (.stream 1 ["first match", "second"], true) := by
  decide

/-- C9: an existing path candidate classified as non-text is reported
`(candidate, not matched)` with no exception, whatever the
abort-on-error flag, and the warning diagnostic is emitted exactly when
diagnostics are not suppressed. -/
theorem C9_nontext_skipped (cfg : GrepCfg) (fs : GrepFS) (p : String)
    (e : GEntry) (he : fs.entry p = some e) (hc : e.classifyRaises = false)
    (ht : entryIsText e = false) :
    (searchFile cfg fs (.fpath p)).1 = .ok (.fpath p, false) ∧
    (searchFile cfg fs (.fpath p)).2 =
      (if cfg.noMessage then [] else [warnNonText p]) := by
  simp [searchFile, he, hc, ht]

/-- A binary (non-text) regular file. -/
def entBin : GEntry :=
  { kind := .regular, mime := "application/octet-stream",
    classifyRaises := false, openRaises := false, lines := [], walkFiles := [] }

/-- Filesystem with the single binary file `x.bin`. -/
def fsBin : GrepFS :=
  { entry := fun p => if p = "x.bin" then some entBin else none }

/-- Search configuration with abort-on-error SET and diagnostics on. -/
def cfgQuit : GrepCfg :=
  { regexPatterns := [], fixedStringPatterns := ["match"],
    noMessage := false, quitOnError := true }

/-- C9 witness: the non-text skip theorem applied to the binary file
`x.bin` under abort-on-error: result is `(x.bin, False)` with the
warning emitted, not an exception. -/
theorem C9_nontext_skipped_witness :
    (searchFile cfgQuit fsBin (.fpath "x.bin")).1 = .ok (.fpath "x.bin", false) ∧
    (searchFile cfgQuit fsBin (.fpath "x.bin")).2 =
      (if cfgQuit.noMessage then [] else [warnNonText "x.bin"]) :=
  C9_nontext_skipped cfgQuit fsBin "x.bin" entBin (by decide) (by decide) (by decide)

/-! ### FileTypeCodec (src/pycmds/FileReader.py) -/

/-- The class-level mutable state of `FileTypeCodec`: the three
observability counters and the classification cache (`history`), keyed
by the resolved path. -/
structure ClassifierState where
  typeCodecStat : List Char → Nat
  typeStat : List Char → Nat
  codecStat : List Char → Nat
  history : List Char → Option (List Char × List Char)

/-- The external collaborators of `magic_from_file`: `Path.resolve`,
`Path.exists` (on the resolved path) and the libmagic sniffer
`magic.from_file` (MIME type plus encoding, one string). -/
structure MagicFS where
  resolve : List Char → List Char
  present : List Char → Bool
  sniff : List Char → List Char

/-- Increment one `defaultdict(int)` counter. -/
def bump (f : List Char → Nat) (k : List Char) : List Char → Nat :=
  fun x => if x = k then f x + 1 else f x

/-- Store one cache entry. -/
def setHist (h : List Char → Option (List Char × List Char)) (k : List Char)
    (v : List Char × List Char) : List Char → Option (List Char × List Char) :=
  fun x => if x = k then some v else h x

/-- `FileTypeCodec.magic_from_file`.  Returns the Python result
(`none` models Python's `None` for a missing path; `PyResult.exn` the
uncaught `ValueError` when `split(";")` does not yield exactly two
fields), the updated class state, and how many times the sniffer was
invoked during the call.  Steps, in source order: resolve the path;
return `None` if it does not exist; answer from `history` if cached;
sniff; count the raw string; split on `";"` and destructure into two
fields; strip the type; delete `charset=` from the codec field and
strip it; count type and codec; cache the pair; return it. -/
def magicFromFile (fs : MagicFS) (st : ClassifierState) (p : List Char) :
    PyResult (Option (List Char × List Char)) × ClassifierState × Nat :=
  let rp := fs.resolve p
  if fs.present rp = false then (.ok none, st, 0)
  else
    match st.history rp with
    | some tc => (.ok (some tc), st, 0)
    | none =>
      let s := fs.sniff rp
      let st1 : ClassifierState := { st with typeCodecStat := bump st.typeCodecStat s }
      match pySplit ';' s with
      | [t, c] =>
        let ty := pyStrip t
        let co := pyStrip (removeCharset c)
        let st2 : ClassifierState :=
          { st1 with
            typeStat := bump st1.typeStat ty,
            codecStat := bump st1.codecStat co,
            history := setHist st1.history rp (ty, co) }
        (.ok (some (ty, co)), st2, 1)
      | _ => (.exn, st1, 1)

/-- The empty class state: all counters zero, empty cache. -/
def st0 : ClassifierState :=
  { typeCodecStat := fun _ => 0, typeStat := fun _ => 0,
    codecStat := fun _ => 0, history := fun _ => none }

/-- A filesystem whose sniffer reports `text/plain; encoding=utf-8`
for every (existing) path; paths resolve to themselves. -/
def fsEnc : MagicFS :=
  { resolve := id, present := fun _ => true,
    sniff := fun _ => "text/plain; encoding=utf-8".toList }

/-- C6 counterexample: for a sniff string of the shape
`T; encoding=C` the returned pair is NOT `(T, C)`: only the literal
`charset=` is deleted from the second field (`replace("charset=", "")`),
so an `encoding=` prefix survives into the codec. -/
theorem C6_encoding_counterexample :
    (magicFromFile fsEnc st0 "f".toList).1 =
      .ok (some ("text/plain".toList, "encoding=utf-8".toList)) ∧
    (magicFromFile fsEnc st0 "f".toList).1 ≠
      .ok (some ("text/plain".toList, "utf-8".toList)) := by
  decide

/-- C6 amended: `magic_from_file` splits the sniff string on `;` into
exactly two fields, strips whitespace, deletes occurrences of
`charset=` (and only `charset=` — an `encoding=` prefix is kept) from
the second field, caches the resulting pair under the resolved path and
returns it: for every uncached existing path whose sniff string is
`T; charset=C` (with `T` and `C` free of `;`, whitespace and
`charset=`), the call returns `(T, C)`, caches `(T, C)`, and invokes
the sniffer once. -/
theorem C6_amended_charset_parse (fs : MagicFS) (st : ClassifierState)
    (p T C : List Char)
    (hp : fs.present (fs.resolve p) = true)
    (hh : st.history (fs.resolve p) = none)
    (hs : fs.sniff (fs.resolve p) = T ++ ';' :: ' ' :: (charsetChars ++ C))
    (hT1 : ';' ∉ T) (hT2 : ∀ ch ∈ T, isPySpace ch = false)
    (hC1 : ';' ∉ C) (hC2 : ∀ ch ∈ C, isPySpace ch = false)
    (hC3 : subOcc charsetChars C = false) :
    (magicFromFile fs st p).1 = .ok (some (T, C)) ∧
    (magicFromFile fs st p).2.1.history (fs.resolve p) = some (T, C) ∧
    (magicFromFile fs st p).2.2 = 1 := by
  have hsep2 : (';' : Char) ∉ (' ' :: (charsetChars ++ C)) := by
    intro hm
    rcases List.mem_cons.mp hm with h1 | h2
    · exact absurd h1 (by decide)
    · rcases List.mem_append.mp h2 with h3 | h4
      · exact absurd h3 (by decide)
      · exact hC1 h4
  have hsplit : pySplit ';' (T ++ ';' :: ' ' :: (charsetChars ++ C)) =
      [T, ' ' :: (charsetChars ++ C)] :=
    pySplit_two_fields ';' T (' ' :: (charsetChars ++ C)) hT1 hsep2
  have hty : pyStrip T = T := pyStrip_no_space T hT2
  have hrm : removeCharset (' ' :: (charsetChars ++ C)) = ' ' :: C := by
    show ' ' :: removeCharset (charsetChars ++ C) = ' ' :: C
    rw [removeCharset_pre, removeCharset_no_occ C hC3]
  simp only [magicFromFile, hp, hh, hs, hsplit, hty]
  rw [hrm, pyStrip_cons_space, pyStrip_no_space C hC2]
  simp [setHist]

/-- A filesystem whose sniffer reports `text/plain; charset=utf-8` for
every (existing) path; paths resolve to themselves. -/
def fsCs : MagicFS :=
  { resolve := id, present := fun _ => true,
    sniff := fun _ => "text/plain".toList ++ ';' :: ' ' :: (charsetChars ++ "utf-8".toList) }

/-- C6 witness: the amended parse theorem applied to the sniff string
`text/plain; charset=utf-8`: the returned and cached pair is
`(text/plain, utf-8)` and the sniffer ran once. -/
theorem C6_amended_charset_parse_witness :
    (magicFromFile fsCs st0 "f".toList).1 =
      .ok (some ("text/plain".toList, "utf-8".toList)) ∧
    (magicFromFile fsCs st0 "f".toList).2.1.history (fsCs.resolve "f".toList) =
      some ("text/plain".toList, "utf-8".toList) ∧
    (magicFromFile fsCs st0 "f".toList).2.2 = 1 :=
  C6_amended_charset_parse fsCs st0 "f".toList "text/plain".toList "utf-8".toList
    rfl rfl rfl (by decide) (by decide) (by decide) (by decide) (by decide)

/-- C8: classifying the same path twice against the same filesystem,
with no reset in between, yields the same classification both times —
a concrete `(type, codec)` pair — and invokes the sniffing service at
most once across the two calls (zero times if the pair was already
cached, once otherwise, the second call being answered from the
cache). -/
theorem C8_memoization (fs : MagicFS) (st : ClassifierState) (p t c : List Char)
    (hp : fs.present (fs.resolve p) = true)
    (hs : pySplit ';' (fs.sniff (fs.resolve p)) = [t, c]) :
    (magicFromFile fs (magicFromFile fs st p).2.1 p).1 = (magicFromFile fs st p).1 ∧
    (∃ tc, (magicFromFile fs st p).1 = .ok (some tc)) ∧
    (magicFromFile fs st p).2.2 +
      (magicFromFile fs (magicFromFile fs st p).2.1 p).2.2 ≤ 1 := by
  cases hh : st.history (fs.resolve p) with
  | some tc =>
    refine ⟨?_, ⟨tc, ?_⟩, ?_⟩ <;> simp [magicFromFile, hp, hh]
  | none =>
    refine ⟨?_, ⟨(pyStrip t, pyStrip (removeCharset c)), ?_⟩, ?_⟩ <;>
      simp [magicFromFile, hp, hh, hs, setHist]

/-- C8 witness: the memoization theorem at the `charset=utf-8`
filesystem starting from the empty state: identical results, a
concrete pair, one sniff in total. -/
theorem C8_memoization_witness :
    (magicFromFile fsCs (magicFromFile fsCs st0 "f".toList).2.1 "f".toList).1 =
      (magicFromFile fsCs st0 "f".toList).1 ∧
    (∃ tc, (magicFromFile fsCs st0 "f".toList).1 = .ok (some tc)) ∧
    (magicFromFile fsCs st0 "f".toList).2.2 +
      (magicFromFile fsCs (magicFromFile fsCs st0 "f".toList).2.1 "f".toList).2.2 ≤ 1 :=
  C8_memoization fsCs st0 "f".toList "text/plain".toList
    (' ' :: (charsetChars ++ "utf-8".toList)) rfl (by decide)

/-- A filesystem on which no path exists. -/
def fsGone : MagicFS :=
  { resolve := id, present := fun _ => false, sniff := fun _ => [] }

/-- Class state in which the path `f` already has a cached
classification. -/
def stCached : ClassifierState :=
  { typeCodecStat := fun _ => 0, typeStat := fun _ => 0,
    codecStat := fun _ => 0,
    history := fun k =>
      if k = "f".toList then some ("text/plain".toList, "utf-8".toList)
      else none }

/-- C10 counterexample: a path that was cached earlier, then absent at
one query (query returns absent, state untouched), then existing again
at a later query, is NOT re-sniffed: the later query is answered from
the surviving cache entry with zero sniffer invocations — the claim
says a previously-absent path is re-sniffed once the file exists. -/
theorem C10_stale_cache_counterexample :
    (magicFromFile fsGone stCached "f".toList).1 = .ok none ∧
    (magicFromFile fsGone stCached "f".toList).2.2 = 0 ∧
    (magicFromFile fsEnc ((magicFromFile fsGone stCached "f".toList).2.1) "f".toList).2.2 = 0 ∧
    (magicFromFile fsEnc ((magicFromFile fsGone stCached "f".toList).2.1) "f".toList).1 =
      .ok (some ("text/plain".toList, "utf-8".toList)) := by
  decide

/-- C10 amended: (1) a query for an absent path returns absent and
leaves the whole class state — cache and counters — unchanged, with no
sniff; (2) a call changes the cache at most at the resolved path, and
only to a concrete successfully returned `(type, codec)` pair; (3) a
path absent at one query and NOT already cached is sniffed exactly once
by a later query made after the file exists, returning a concrete
pair. -/
theorem C10_cache_success_only :
    (∀ fs st p, fs.present (fs.resolve p) = false →
      magicFromFile fs st p = (.ok none, st, 0)) ∧
    (∀ fs st p q,
      (magicFromFile fs st p).2.1.history q = st.history q ∨
      (q = fs.resolve p ∧ ∃ tc,
        (magicFromFile fs st p).2.1.history q = some tc ∧
        (magicFromFile fs st p).1 = .ok (some tc))) ∧
    (∀ fs1 fs2 st p t c,
      fs1.present (fs1.resolve p) = false →
      fs2.present (fs2.resolve p) = true →
      st.history (fs2.resolve p) = none →
      pySplit ';' (fs2.sniff (fs2.resolve p)) = [t, c] →
      (magicFromFile fs1 st p).1 = .ok none ∧
      (magicFromFile fs2 (magicFromFile fs1 st p).2.1 p).2.2 = 1 ∧
      (∃ tc, (magicFromFile fs2 (magicFromFile fs1 st p).2.1 p).1 = .ok (some tc))) := by
  refine ⟨?_, ?_, ?_⟩
  · intro fs st p h
    simp [magicFromFile, h]
  · intro fs st p q
    cases hpres : fs.present (fs.resolve p) with
    | false => left; simp [magicFromFile, hpres]
    | true =>
      cases hh : st.history (fs.resolve p) with
      | some tc => left; simp [magicFromFile, hpres, hh]
      | none =>
        rcases hsp : pySplit ';' (fs.sniff (fs.resolve p)) with _ | ⟨t, _ | ⟨c, _ | _⟩⟩
        · left; simp [magicFromFile, hpres, hh, hsp]
        · left; simp [magicFromFile, hpres, hh, hsp]
        · by_cases hq : q = fs.resolve p
          · right
            exact ⟨hq, (pyStrip t, pyStrip (removeCharset c)),
              by simp [magicFromFile, hpres, hh, hsp, setHist, hq],
              by simp [magicFromFile, hpres, hh, hsp]⟩
          · left; simp [magicFromFile, hpres, hh, hsp, setHist, hq]
        · left; simp [magicFromFile, hpres, hh, hsp]
  · intro fs1 fs2 st p t c h1 h2 h3 h4
    refine ⟨?_, ?_, ⟨(pyStrip t, pyStrip (removeCharset c)), ?_⟩⟩ <;>
      simp [magicFromFile, h1, h2, h3, h4]

/-- C10 witness: the amended theorem's re-sniff component at concrete
data: `f` absent (query returns absent), then present with sniff string
`text/plain; charset=utf-8`: the second query sniffs exactly once and
returns a concrete pair. -/
theorem C10_cache_success_only_witness :
    (magicFromFile fsGone st0 "f".toList).1 = .ok none ∧
    (magicFromFile fsCs ((magicFromFile fsGone st0 "f".toList).2.1) "f".toList).2.2 = 1 ∧
    (∃ tc, (magicFromFile fsCs ((magicFromFile fsGone st0 "f".toList).2.1) "f".toList).1 =
      .ok (some tc)) :=
  C10_cache_success_only.2.2 fsGone fsCs st0 "f".toList "text/plain".toList
    (' ' :: (charsetChars ++ "utf-8".toList)) rfl rfl rfl (by decide)

end Pycmds
